import Mathlib

/-!
Verification development for the susunsoal quiz backend's attempt lifecycle.

The definitions below are a shallow embedding of the JavaScript source:
  - the Mongoose schemas `Attempt` (models/Attempt.js) and `Quiz`
    (models/Quiz.js) become Lean structures;
  - the Express route handlers in routes/attempt.js and the agenda job
    "auto-submit attempt" in agenda.js become pure functions from a store
    state to a (result, store) pair;
  - ObjectIds are modelled as `String` (the source always compares them via
    `toString()` string equality), timestamps as `Int` milliseconds since
    the epoch, and JavaScript numbers holding integer counters as `Int`.
Fallible handlers return an explicit result inductive mirroring the HTTP
responses the source sends.
-/

namespace Susun

/-- `status` enum of the Attempt schema: `["in-progress", "submitted"]`. -/
inductive AttemptStatus where
  | inProgress
  | submitted
deriving DecidableEq, Repr

/-- One entry of `AttemptSchema.answers`: `{ questionId, selectedAnswer }`. -/
structure Answer where
  questionId : String
  selectedAnswer : String
deriving DecidableEq, Repr

/-- `type` enum of the Question schema. -/
inductive QuestionType where
  | multipleChoice
  | shortAnswer
deriving DecidableEq, Repr

/-- `QuestionSchema` of models/Quiz.js; `id` is the subdocument `_id`. -/
structure Question where
  id : String
  qtype : QuestionType
  questionText : String
  options : List String
  correctAnswer : String
  explanation : Option String
deriving DecidableEq, Repr

/-- `QuizSchema` of models/Quiz.js; `id` is the document `_id`. -/
structure Quiz where
  id : String
  title : String
  createdBy : String
  questions : List Question
  timeLimit : Int
  totalScore : Int
  attemptCount : Int
  dateOpens : Int
  dateCloses : Int
  published : Bool
deriving DecidableEq, Repr

/-- `AttemptSchema` of models/Attempt.js; `id` is the document `_id`. -/
structure Attempt where
  id : String
  userId : String
  quizId : String
  quizTitle : String
  userName : String
  startTime : Int
  endTime : Int
  score : Option Nat
  status : AttemptStatus
  answers : List Answer
deriving DecidableEq, Repr

/-- A pending agenda job, as created by
`agenda.schedule(endTime, "auto-submit attempt", { attemptId })`. -/
structure Job where
  fireAt : Int
  attemptId : String
deriving DecidableEq, Repr

/-- The persistent store the handlers read and write: the Attempt and Quiz
collections plus the agenda job collection. -/
structure St where
  quizzes : List Quiz
  attempts : List Attempt
  jobs : List Job
deriving DecidableEq, Repr

/-- `Quiz.findById(quizId)`. -/
def findQuiz (st : St) (quizId : String) : Option Quiz :=
  st.quizzes.find? (fun q => q.id = quizId)

/-- `Attempt.findById(attemptId)`. -/
def findAttempt (st : St) (attemptId : String) : Option Attempt :=
  st.attempts.find? (fun a => a.id = attemptId)

/-- `attempt.save()` on an already persisted document: replace the stored
record carrying the same `_id`. -/
def updateAttempt (st : St) (a : Attempt) : St :=
  { st with attempts := st.attempts.map (fun x => if x.id = a.id then a else x) }

/-- `quiz.save()` on an already persisted document. -/
def updateQuiz (st : St) (q : Quiz) : St :=
  { st with quizzes := st.quizzes.map (fun x => if x.id = q.id then q else x) }

/-- `agenda.cancel({ "data.attemptId": attemptId })`: drop the pending jobs
whose payload carries this attempt. -/
def cancelJobs (st : St) (attemptId : String) : St :=
  { st with jobs := st.jobs.filter (fun j => j.attemptId ≠ attemptId) }

/-- `calculateScore(answers, quiz)` from routes/attempt.js:
`quiz.questions.reduce(...)`, looking the user's answer up with
`answers.find(ans => ans.questionId.toString() === question._id.toString())`
and awarding one point when `selectedAnswer === question.correctAnswer`. -/
def calculateScore (answers : List Answer) (quiz : Quiz) : Nat :=
  quiz.questions.foldl
    (fun score question =>
      match answers.find? (fun ans => ans.questionId = question.id) with
      | some userAnswer =>
          if userAnswer.selectedAnswer = question.correctAnswer then score + 1 else score
      | none => score)
    0

/-- The scoring loop of the agenda job "auto-submit attempt" (agenda.js):
`attempt.answers.forEach(...)`, looking each answer's question up with
`quiz.questions.find(q => q._id.toString() === ans.questionId.toString())`
and incrementing when `question.correctAnswer === ans.selectedAnswer`. -/
def agendaScore (answers : List Answer) (questions : List Question) : Nat :=
  answers.foldl
    (fun score ans =>
      match questions.find? (fun q => q.id = ans.questionId) with
      | some question =>
          if question.correctAnswer = ans.selectedAnswer then score + 1 else score
      | none => score)
    0

/-- The answers mutation of `POST /attempt/save`:
`findIndex` on `questionId`, then `splice` (entry found, empty answer),
in-place overwrite of `selectedAnswer` (entry found, non-empty answer), or
`push` (no entry, non-empty answer).  At a found index the stored
`questionId` equals the argument (that is the `findIndex` predicate), so
overwriting `selectedAnswer` yields the record written here. -/
def saveAnswerUpdate (answers : List Answer) (questionId selectedAnswer : String) :
    List Answer :=
  match answers.findIdx? (fun ans => ans.questionId = questionId) with
  | some existingIndex =>
      if selectedAnswer = "" then answers.eraseIdx existingIndex
      else answers.set existingIndex
        { questionId := questionId, selectedAnswer := selectedAnswer }
  | none =>
      if selectedAnswer ≠ "" then
        answers ++ [{ questionId := questionId, selectedAnswer := selectedAnswer }]
      else answers

/-- The answer stored for a question, if any: the first `answers` entry whose
`questionId` matches, projected to its `selectedAnswer` (this is exactly the
lookup both scoring paths perform). -/
def lookupAnswer (answers : List Answer) (questionId : String) : Option String :=
  (answers.find? (fun ans => ans.questionId = questionId)).map
    (fun ans => ans.selectedAnswer)

/-- Outcome of `POST /attempt/start`. -/
inductive StartResult where
  | quizNotFound
  | created (attempt : Attempt)
deriving DecidableEq, Repr

/-- `POST /attempt/start`: look the quiz up, compute
`endTime = min(quiz.dateCloses, now + quiz.timeLimit * 60000)`, create the
Attempt (status `in-progress`, empty answers) and schedule one
"auto-submit attempt" job at `endTime` carrying the new attempt id.
`now` is the handler's `new Date()` and `newId` the `_id` the store mints
for the new document. -/
def startAttempt (st : St) (userId userName quizId : String) (now : Int)
    (newId : String) : StartResult × St :=
  match findQuiz st quizId with
  | none => (.quizNotFound, st)
  | some quiz =>
      let endTime := min quiz.dateCloses (now + quiz.timeLimit * 60000)
      let attempt : Attempt :=
        { id := newId, userId := userId, quizId := quizId, quizTitle := quiz.title,
          userName := userName, startTime := now, endTime := endTime,
          score := none, status := .inProgress, answers := [] }
      (.created attempt,
        { st with
            attempts := st.attempts ++ [attempt],
            jobs := st.jobs ++ [{ fireAt := endTime, attemptId := newId }] })

/-- Outcome of `POST /attempt/save`. -/
inductive SaveResult where
  | attemptNotFound
  | alreadySubmitted
  | saved (attempt : Attempt)
deriving DecidableEq, Repr

/-- `POST /attempt/save`: 404 if the attempt is absent, 400 if its status is
not `in-progress`, otherwise apply `saveAnswerUpdate` and persist. -/
def saveAnswer (st : St) (attemptId questionId selectedAnswer : String) :
    SaveResult × St :=
  match findAttempt st attemptId with
  | none => (.attemptNotFound, st)
  | some attempt =>
      if attempt.status ≠ .inProgress then (.alreadySubmitted, st)
      else
        let attempt2 :=
          { attempt with
              answers := saveAnswerUpdate attempt.answers questionId selectedAnswer }
        (.saved attempt2, updateAttempt st attempt2)

/-- Outcome of `POST /attempt/submit`. -/
inductive SubmitResult where
  | attemptNotFound
  | alreadySubmitted
  | quizNotFound
  | ok (attempt : Attempt) (quiz : Quiz)
deriving DecidableEq, Repr

/-- `POST /attempt/submit` run in isolation (no interleaving): find the
attempt with its populated quiz, 404 / 400 checks, cancel the pending agenda
jobs of this attempt, 404 if the quiz is gone, then finalize: set status and
score on the attempt, persist it, add `score` to `quiz.totalScore`, add 1 to
`quiz.attemptCount`, persist the quiz. -/
def submitAttempt (st : St) (attemptId : String) : SubmitResult × St :=
  match findAttempt st attemptId with
  | none => (.attemptNotFound, st)
  | some attempt =>
      if attempt.status = .submitted then (.alreadySubmitted, st)
      else
        let st1 := cancelJobs st attemptId
        match findQuiz st attempt.quizId with
        | none => (.quizNotFound, st1)
        | some quiz =>
            let score := calculateScore attempt.answers quiz
            let attempt2 := { attempt with status := .submitted, score := some score }
            let st2 := updateAttempt st1 attempt2
            let quiz2 :=
              { quiz with
                  totalScore := quiz.totalScore + score,
                  attemptCount := quiz.attemptCount + 1 }
            (.ok attempt2 quiz2, updateQuiz st2 quiz2)

/-- Outcome of the agenda job "auto-submit attempt". -/
inductive AutoResult where
  | attemptNotFound
  | alreadySubmitted
  | jobError
  | ok (attempt : Attempt) (quiz : Quiz)
deriving DecidableEq, Repr

/-- The agenda job "auto-submit attempt" (agenda.js) run in isolation: no-op
when the attempt is absent or already submitted; when the populated quiz is
null the `quiz.questions` access throws and the catch block leaves every
record untouched; otherwise compute the score with the job's own loop and
finalize exactly as Submit does. -/
def autoSubmitAttempt (st : St) (attemptId : String) : AutoResult × St :=
  match findAttempt st attemptId with
  | none => (.attemptNotFound, st)
  | some attempt =>
      if attempt.status = .submitted then (.alreadySubmitted, st)
      else
        match findQuiz st attempt.quizId with
        | none => (.jobError, st)
        | some quiz =>
            let score := agendaScore attempt.answers quiz.questions
            let attempt2 := { attempt with status := .submitted, score := some score }
            let st2 := updateAttempt st attempt2
            let quiz2 :=
              { quiz with
                  totalScore := quiz.totalScore + score,
                  attemptCount := quiz.attemptCount + 1 }
            (.ok attempt2 quiz2, updateQuiz st2 quiz2)

/-- Outcome of `GET /attempt/:attemptId`. -/
inductive GetResult where
  | attemptNotFound
  | notSubmitted
  | quizNotFound
  | ok (attempt : Attempt) (attemptedQuiz : Quiz)
  | unauthorized
deriving DecidableEq, Repr

/-- `GET /attempt/:attemptId`: 404 if the attempt is absent, 403 if it is not
yet submitted, 404 if its quiz is gone, 200 with the full attempt and quiz if
the requester is the participant or the quiz creator, 403 otherwise. -/
def getAttempt (st : St) (attemptId requesterId : String) : GetResult :=
  match findAttempt st attemptId with
  | none => .attemptNotFound
  | some attempt =>
      if attempt.status ≠ .submitted then .notSubmitted
      else
        match findQuiz st attempt.quizId with
        | none => .quizNotFound
        | some attemptedQuiz =>
            if attempt.userId = requesterId ∨ attemptedQuiz.createdBy = requesterId then
              .ok attempt attemptedQuiz
            else .unauthorized

/-! ## Fine-grained model of the finalization race

`submitAttempt` and `autoSubmitAttempt` above run each handler atomically.
The Submit handler and the agenda job actually issue a sequence of separate
database operations; between any two of them the other party may run.  The
model below splits each finalizer at its `await` points into atomic store
accesses, with all in-memory work (status checks, score computation on the
fetched documents) folded into the adjacent access:
  - `readAtt`: the `Attempt.findById` query;
  - `readQuiz`: the `.populate("quizId")` query (a second, separate query),
    followed by the in-memory not-found / already-submitted checks;
  - `cancelStep` (Submit only): `agenda.cancel`, followed by the in-memory
    null-quiz check;
  - `writeAtt`: `attempt.save()` writing status `submitted` and the score
    computed from the documents fetched above;
  - `writeQuiz`: `quiz.save()` writing the aggregate increments computed on
    the quiz document fetched above.
Both finalizers mutate the documents they fetched and call `save()`, which
writes unconditionally (no status-conditioned update is issued). -/

/-- Which finalizer the process runs: the Submit route or the agenda job. -/
inductive FinKind where
  | submitRoute
  | autoJob
deriving DecidableEq, Repr

/-- Program counter of a finalizer between its database operations. -/
inductive FinPC where
  | readAtt
  | readQuiz
  | cancelStep
  | writeAtt
  | writeQuiz
  | pcDone
deriving DecidableEq, Repr

/-- How a finalizer finished. -/
inductive FinOutcome where
  | notFound
  | alreadySubmitted
  | quizMissing
  | finalized
deriving DecidableEq, Repr

/-- Local state of one finalizer: its program counter plus the Attempt and
Quiz documents it fetched (Mongoose documents live in the handler's memory;
later mutations by the other party are not reflected in them). -/
structure FinProc where
  kind : FinKind
  attemptId : String
  pc : FinPC
  la : Option Attempt
  lq : Option Quiz
  res : Option FinOutcome
deriving DecidableEq, Repr

/-- The score each finalizer computes from its fetched documents: the Submit
route calls `calculateScore`, the agenda job runs its own loop. -/
def finScore (kind : FinKind) (answers : List Answer) (quiz : Quiz) : Nat :=
  match kind with
  | .submitRoute => calculateScore answers quiz
  | .autoJob => agendaScore answers quiz.questions

/-- A finalizer ready to run on the given attempt id. -/
def finInit (kind : FinKind) (attemptId : String) : FinProc :=
  { kind := kind, attemptId := attemptId, pc := .readAtt,
    la := none, lq := none, res := none }

/-- One atomic database operation of a finalizer (see the section comment for
the correspondence with the source's `await` points). -/
def finStep (st : St) (p : FinProc) : St × FinProc :=
  match p.pc with
  | .readAtt =>
      (st, { p with la := findAttempt st p.attemptId, pc := .readQuiz })
  | .readQuiz =>
      match p.la with
      | none => (st, { p with pc := .pcDone, res := some .notFound })
      | some att =>
          let lq := findQuiz st att.quizId
          if att.status = .submitted then
            (st, { p with lq := lq, pc := .pcDone, res := some .alreadySubmitted })
          else
            match p.kind with
            | .submitRoute => (st, { p with lq := lq, pc := .cancelStep })
            | .autoJob =>
                match lq with
                | none => (st, { p with lq := lq, pc := .pcDone, res := some .quizMissing })
                | some _ => (st, { p with lq := lq, pc := .writeAtt })
  | .cancelStep =>
      (cancelJobs st p.attemptId,
        match p.lq with
        | none => { p with pc := .pcDone, res := some .quizMissing }
        | some _ => { p with pc := .writeAtt })
  | .writeAtt =>
      match p.la, p.lq with
      | some att, some quiz =>
          let score := finScore p.kind att.answers quiz
          let att2 := { att with status := .submitted, score := some score }
          (updateAttempt st att2, { p with la := some att2, pc := .writeQuiz })
      | _, _ => (st, { p with pc := .pcDone, res := some .notFound })
  | .writeQuiz =>
      match p.la, p.lq with
      | some att, some quiz =>
          let quiz2 :=
            { quiz with
                totalScore := quiz.totalScore + att.score.getD 0,
                attemptCount := quiz.attemptCount + 1 }
          (updateQuiz st quiz2, { p with pc := .pcDone, res := some .finalized })
      | _, _ => (st, { p with pc := .pcDone, res := some .notFound })
  | .pcDone => (st, p)

/-- Run two finalizers under a schedule: `true` steps the first process,
`false` the second. -/
def finRun (st : St) (p1 p2 : FinProc) : List Bool → St × FinProc × FinProc
  | [] => (st, p1, p2)
  | b :: rest =>
      if b then
        let s := finStep st p1
        finRun s.1 s.2 p2 rest
      else
        let s := finStep st p2
        finRun s.1 p1 s.2 rest

/-! ## Proof-oriented auxiliary definitions

Structural-recursion characterizations of the folds and of the splice-based
answers update, connected to the source-shaped definitions by proved
equalities below, plus the key projections the uniqueness invariant speaks
about. -/

/-- The `questionId` keys of an answers list. -/
def answerKeys (answers : List Answer) : List String :=
  answers.map (fun ans => ans.questionId)

/-- The `_id`s of a question list. -/
def questionIds (questions : List Question) : List String :=
  questions.map (fun q => q.id)

/-- `calculateScore` as structural recursion on the question list. -/
def calcScoreR (answers : List Answer) : List Question → Nat
  | [] => 0
  | question :: rest =>
      (match answers.find? (fun ans => ans.questionId = question.id) with
       | some userAnswer =>
           if userAnswer.selectedAnswer = question.correctAnswer then 1 else 0
       | none => 0) + calcScoreR answers rest

/-- The agenda job's scoring loop as structural recursion on the answers. -/
def agendaScoreR (questions : List Question) : List Answer → Nat
  | [] => 0
  | ans :: rest =>
      (match questions.find? (fun q => q.id = ans.questionId) with
       | some question =>
           if question.correctAnswer = ans.selectedAnswer then 1 else 0
       | none => 0) + agendaScoreR questions rest

/-- `saveAnswerUpdate` as structural recursion: the first entry carrying the
key is removed (empty answer) or overwritten, a missing key appends a
non-empty answer at the end. -/
def saveAnswerUpdateR : List Answer → String → String → List Answer
  | [], questionId, selectedAnswer =>
      if selectedAnswer = "" then []
      else [{ questionId := questionId, selectedAnswer := selectedAnswer }]
  | ans :: rest, questionId, selectedAnswer =>
      if ans.questionId = questionId then
        if selectedAnswer = "" then rest
        else { questionId := questionId, selectedAnswer := selectedAnswer } :: rest
      else ans :: saveAnswerUpdateR rest questionId selectedAnswer

/-- The attempt id a `startAttempt` result carries, if it created one. -/
def startResultId : StartResult → Option String
  | .created attempt => some attempt.id
  | .quizNotFound => none

/-! ## Concrete fixtures

A one-question quiz and attempts over it, used to instantiate theorems with
hypotheses and to exhibit concrete counterexamples. -/

/-- A multiple-choice question whose correct answer is "A". -/
def sampleQuestion : Question :=
  { id := "qu1", qtype := .multipleChoice, questionText := "2 + 2?",
    options := ["A", "B"], correctAnswer := "A", explanation := none }

/-- A published one-question quiz owned by "owner" with zeroed aggregates. -/
def sampleQuiz : Quiz :=
  { id := "qz1", title := "Sample", createdBy := "owner",
    questions := [sampleQuestion], timeLimit := 1, totalScore := 0,
    attemptCount := 0, dateOpens := 0, dateCloses := 10000000, published := true }

/-- An in-progress attempt by "user" on the sample quiz, with the correct
answer saved. -/
def sampleAttempt : Attempt :=
  { id := "at1", userId := "user", quizId := "qz1", quizTitle := "Sample",
    userName := "U", startTime := 0, endTime := 60000, score := none,
    status := .inProgress,
    answers := [{ questionId := "qu1", selectedAnswer := "A" }] }

/-- The submitted version of the sample attempt. -/
def sampleSubmitted : Attempt :=
  { sampleAttempt with id := "at2", status := .submitted, score := some 1 }

/-- Store holding the sample quiz, the in-progress sample attempt and its
pending auto-submit job. -/
def sampleSt : St :=
  { quizzes := [sampleQuiz], attempts := [sampleAttempt],
    jobs := [{ fireAt := 60000, attemptId := "at1" }] }

/-- Store holding the sample quiz and a submitted attempt. -/
def sampleStSub : St :=
  { quizzes := [sampleQuiz], attempts := [sampleSubmitted], jobs := [] }

/-- Store holding only the sample quiz. -/
def sampleStQuizOnly : St :=
  { quizzes := [sampleQuiz], attempts := [], jobs := [] }

/-- The interleaving of the Submit route (first process) and the agenda job
(second process) in which the job fetches the attempt before the route
begins, the route then finalizes completely, and the job finishes on its
stale snapshot. -/
def raceSchedule : List Bool :=
  [false, true, true, true, true, true, false, false, false]

end Susun

namespace Susun

/-! ## Bridging lemmas: the folds of the source agree with their structural
recursions. -/

theorem calc_foldl_aux (answers : List Answer) :
    ∀ (qs : List Question) (n : Nat),
      List.foldl
        (fun score question =>
          match answers.find? (fun ans => ans.questionId = question.id) with
          | some userAnswer =>
              if userAnswer.selectedAnswer = question.correctAnswer then score + 1
              else score
          | none => score) n qs
      = n + calcScoreR answers qs := by
  intro qs
  induction qs with
  | nil => intro n; simp [calcScoreR]
  | cons q rest ih =>
      intro n
      rw [List.foldl_cons]
      simp only [calcScoreR]
      rcases h : answers.find? (fun ans => ans.questionId = q.id) with _ | a
      · simp only [h, ih]
        rw [Nat.zero_add]
      · simp only [h]
        rw [ih]
        by_cases hc : a.selectedAnswer = q.correctAnswer
        · simp only [if_pos hc]
          rw [Nat.add_assoc]
        · simp only [if_neg hc]
          rw [Nat.zero_add]

theorem calculateScore_eq_calcScoreR (answers : List Answer) (quiz : Quiz) :
    calculateScore answers quiz = calcScoreR answers quiz.questions := by
  unfold calculateScore
  rw [calc_foldl_aux]
  rw [Nat.zero_add]

theorem agenda_foldl_aux (questions : List Question) :
    ∀ (answers : List Answer) (n : Nat),
      List.foldl
        (fun score ans =>
          match questions.find? (fun q => q.id = ans.questionId) with
          | some question =>
              if question.correctAnswer = ans.selectedAnswer then score + 1
              else score
          | none => score) n answers
      = n + agendaScoreR questions answers := by
  intro answers
  induction answers with
  | nil => intro n; simp [agendaScoreR]
  | cons a rest ih =>
      intro n
      rw [List.foldl_cons]
      simp only [agendaScoreR]
      rcases h : questions.find? (fun q => q.id = a.questionId) with _ | q
      · simp only [h, ih]
        rw [Nat.zero_add]
      · simp only [h]
        rw [ih]
        by_cases hc : q.correctAnswer = a.selectedAnswer
        · simp only [if_pos hc]
          rw [Nat.add_assoc]
        · simp only [if_neg hc]
          rw [Nat.zero_add]

theorem agendaScore_eq_agendaScoreR (answers : List Answer) (questions : List Question) :
    agendaScore answers questions = agendaScoreR questions answers := by
  unfold agendaScore
  rw [agenda_foldl_aux]
  rw [Nat.zero_add]

/-! ## Facts about the two scoring recursions. -/

theorem agendaScoreR_nil : ∀ answers : List Answer, agendaScoreR [] answers = 0 := by
  intro answers
  induction answers with
  | nil => rfl
  | cons a rest ih => simp [agendaScoreR, ih]

/-- Peeling the head question off the agenda loop: the answers keyed on it
each score against it, the remaining answers score against the tail. -/
theorem agendaScoreR_cons (q : Question) (rest : List Question) :
    ∀ answers : List Answer,
      agendaScoreR (q :: rest) answers
      = answers.countP
          (fun ans => decide (q.id = ans.questionId ∧ q.correctAnswer = ans.selectedAnswer))
        + agendaScoreR rest (answers.filter (fun ans => decide (q.id ≠ ans.questionId))) := by
  intro answers
  induction answers with
  | nil => simp [agendaScoreR]
  | cons a resta ih =>
      simp only [agendaScoreR, List.find?_cons, List.countP_cons, List.filter_cons]
      by_cases hqa : q.id = a.questionId
      · by_cases hc : q.correctAnswer = a.selectedAnswer <;>
          (simp [hqa, hc, ih]; try omega)
      · rcases hf : rest.find? (fun qq => qq.id = a.questionId) with _ | q2
        · simp [hqa, hf, ih, agendaScoreR]
        · by_cases hc2 : q2.correctAnswer = a.selectedAnswer <;>
            (simp [hqa, hf, hc2, ih, agendaScoreR]; try omega)
/-- With unique answer keys, counting the correct answers for one question
collapses to the single looked-up entry. -/
theorem countP_correct_eq_hit (q : Question) :
    ∀ answers : List Answer, (answerKeys answers).Nodup →
      answers.countP
        (fun ans => decide (q.id = ans.questionId ∧ q.correctAnswer = ans.selectedAnswer))
      = match answers.find? (fun ans => ans.questionId = q.id) with
        | some userAnswer =>
            if userAnswer.selectedAnswer = q.correctAnswer then 1 else 0
        | none => 0 := by
  intro answers
  induction answers with
  | nil => intro h; rfl
  | cons a resta ih =>
      intro h
      have hkeys : a.questionId ∉ answerKeys resta ∧ (answerKeys resta).Nodup := by
        simpa [answerKeys] using h
      simp only [List.countP_cons, List.find?_cons]
      by_cases hqa : a.questionId = q.id
      · have hzero : resta.countP
            (fun ans => decide (q.id = ans.questionId ∧ q.correctAnswer = ans.selectedAnswer)) = 0 := by
          rw [List.countP_eq_zero]
          intro x hx
          simp only [decide_eq_true_eq]
          rintro ⟨hxk, -⟩
          exact hkeys.1 (by
            rw [hqa, hxk]
            exact List.mem_map_of_mem (fun ans => ans.questionId) hx)
        rw [hzero]
        by_cases hc : a.selectedAnswer = q.correctAnswer <;>
          simp [hqa, hc, eq_comm]
      · have hpa : (decide (q.id = a.questionId ∧ q.correctAnswer = a.selectedAnswer)) = false := by
          simp
          intro hk
          exact absurd hk.symm hqa
        have hfa : (decide (a.questionId = q.id)) = false := by simp [hqa]
        rw [hpa, hfa]
        simp only [Bool.false_eq_true, if_false, Nat.add_zero]
        exact ih hkeys.2

/-- Filtering with a predicate that holds on every entry carrying a given key
does not change the lookup at that key. -/
theorem find?_filter_of_key (p : Answer → Bool) (k : String)
    (hp : ∀ ans : Answer, ans.questionId = k → p ans = true) :
    ∀ answers : List Answer,
      (answers.filter p).find? (fun ans => ans.questionId = k)
      = answers.find? (fun ans => ans.questionId = k) := by
  intro answers
  induction answers with
  | nil => rfl
  | cons a resta ih =>
      simp only [List.filter_cons, List.find?_cons]
      by_cases hk : a.questionId = k
      · rw [if_pos (hp a hk)]
        simp [hk]
      · have hdk : (decide (a.questionId = k)) = false := by simp [hk]
        by_cases hpa : p a = true
        · rw [if_pos hpa]
          simp only [List.find?_cons, hdk, Bool.false_eq_true, if_false]
          exact ih
        · rw [if_neg hpa, ih, hdk]
          try simp

/-- `calculateScore` only depends on the lookup results for the quiz's
questions. -/
theorem calcScoreR_congr (ans1 ans2 : List Answer) :
    ∀ qs : List Question,
      (∀ q ∈ qs, ans1.find? (fun a => a.questionId = q.id)
                 = ans2.find? (fun a => a.questionId = q.id)) →
      calcScoreR ans1 qs = calcScoreR ans2 qs := by
  intro qs
  induction qs with
  | nil => intro _; rfl
  | cons q rest ih =>
      intro h
      simp only [calcScoreR]
      rw [h q (List.mem_cons_self q rest), ih (fun q2 hq2 => h q2 (List.mem_cons_of_mem q hq2))]

/-- Filtering an answers list keeps its keys Nodup. -/
theorem answerKeys_filter_nodup (p : Answer → Bool) (answers : List Answer)
    (h : (answerKeys answers).Nodup) : (answerKeys (answers.filter p)).Nodup := by
  simp only [answerKeys] at h ⊢
  exact List.Nodup.sublist
    (List.Sublist.map (fun ans => ans.questionId) (List.filter_sublist answers)) h

/-- The two scoring loops agree whenever the answer keys and the question ids
are unique (as they are for every system state). -/
theorem agendaScoreR_eq_calcScoreR :
    ∀ (qs : List Question) (answers : List Answer),
      (answerKeys answers).Nodup → (questionIds qs).Nodup →
      agendaScoreR qs answers = calcScoreR answers qs := by
  intro qs
  induction qs with
  | nil => intro answers h1 h2; rw [agendaScoreR_nil]; rfl
  | cons q rest ih =>
      intro answers h1 h2
      have h2' : q.id ∉ questionIds rest ∧ (questionIds rest).Nodup := by
        simpa [questionIds] using h2
      rw [agendaScoreR_cons, countP_correct_eq_hit q answers h1]
      have hfk : (answerKeys (answers.filter (fun ans => decide (q.id ≠ ans.questionId)))).Nodup :=
        answerKeys_filter_nodup _ answers h1
      rw [ih _ hfk h2'.2]
      have hcong : calcScoreR (answers.filter (fun ans => decide (q.id ≠ ans.questionId))) rest
          = calcScoreR answers rest := by
        apply calcScoreR_congr
        intro q2 hq2
        apply find?_filter_of_key
        intro ans hans
        have hne : q.id ≠ q2.id := by
          intro hc
          exact h2'.1 (hc ▸ List.mem_map_of_mem (fun qq => qq.id) hq2)
        simp [hans, hne]
      rw [hcong]
      simp [calcScoreR]

/-- The score Submit computes and the score the agenda job computes agree
whenever the answer keys and the question ids are unique. -/
theorem score_paths_agree (answers : List Answer) (quiz : Quiz)
    (h1 : (answerKeys answers).Nodup) (h2 : (questionIds quiz.questions).Nodup) :
    agendaScore answers quiz.questions = calculateScore answers quiz := by
  rw [agendaScore_eq_agendaScoreR, calculateScore_eq_calcScoreR,
    agendaScoreR_eq_calcScoreR quiz.questions answers h1 h2]

/-! ## Lookup under permutation of an answers list with unique keys. -/

/-- With unique keys, the lookup finds any member carrying the key. -/
theorem find?_eq_some_of_nodup (k : String) :
    ∀ l : List Answer, (answerKeys l).Nodup → ∀ a ∈ l, a.questionId = k →
      l.find? (fun x => x.questionId = k) = some a := by
  intro l
  induction l with
  | nil => intro _ a ha; exact absurd ha (List.not_mem_nil a)
  | cons b rest ih =>
      intro h a ha hak
      have hkeys : b.questionId ∉ answerKeys rest ∧ (answerKeys rest).Nodup := by
        simpa [answerKeys] using h
      rcases List.mem_cons.mp ha with hab | harest
      · subst hab
        simp [List.find?_cons, hak]
      · have hbk : b.questionId ≠ k := by
          intro hbk
          apply hkeys.1
          rw [hbk, ← hak]
          exact List.mem_map_of_mem (fun ans => ans.questionId) harest
        simp only [List.find?_cons]
        have : (decide (b.questionId = k)) = false := by simp [hbk]
        rw [this]
        simpa using ih hkeys.2 a harest hak

/-- With unique keys, the lookup result is invariant under permutation. -/
theorem find?_perm_of_nodup (l l2 : List Answer) (hp : l.Perm l2)
    (h : (answerKeys l).Nodup) (k : String) :
    l.find? (fun x => x.questionId = k) = l2.find? (fun x => x.questionId = k) := by
  have h2 : (answerKeys l2).Nodup := by
    simp only [answerKeys] at h ⊢
    exact ((hp.map (fun ans => ans.questionId)).nodup_iff).mp h
  rcases hf : l.find? (fun x => x.questionId = k) with _ | a
  · have hf2 := List.find?_eq_none.mp hf
    rw [hf]
    symm
    rw [List.find?_eq_none]
    intro x hx
    exact hf2 x (hp.mem_iff.mpr hx)
  · have hmem : a ∈ l2 := hp.mem_iff.mp (List.mem_of_find?_eq_some hf)
    have hkey : a.questionId = k := by simpa using List.find?_some hf
    rw [hf]
    exact (find?_eq_some_of_nodup k l2 h2 a hmem hkey).symm

/-! ## The splice-based answers update. -/

/-- `saveAnswerUpdate` computes the same list as its structural recursion. -/
theorem saveAnswerUpdate_eq_R (questionId v : String) :
    ∀ answers : List Answer,
      saveAnswerUpdate answers questionId v = saveAnswerUpdateR answers questionId v := by
  intro answers
  induction answers with
  | nil =>
      simp only [saveAnswerUpdate, saveAnswerUpdateR, List.findIdx?_nil]
      by_cases hv : v = "" <;> simp [hv]
  | cons a rest ih =>
      simp only [saveAnswerUpdateR]
      rw [← ih]
      by_cases ha : a.questionId = questionId
      · rw [if_pos ha]
        simp only [saveAnswerUpdate, List.findIdx?_cons]
        rw [if_pos (by simp [ha] : (decide (a.questionId = questionId)) = true)]
        by_cases hv : v = ""
        · simp only [if_pos hv]
          rfl
        · simp only [if_neg hv]
          rfl
      · rw [if_neg ha]
        simp only [saveAnswerUpdate, List.findIdx?_cons]
        rw [if_neg (by simp [ha] : ¬((decide (a.questionId = questionId)) = true)),
          List.findIdx?_succ]
        rcases hf : rest.findIdx? (fun ans => ans.questionId = questionId) with _ | i
        · rw [hf]
          simp only [Option.map_none']
          by_cases hv : v = ""
          · rw [if_neg (by simp [hv]), if_neg (by simp [hv])]
          · rw [if_pos (by simp [hv]), if_pos (by simp [hv])]
            rfl
        · rw [hf]
          simp only [Option.map_some']
          by_cases hv : v = ""
          · simp only [if_pos hv]
            rfl
          · simp only [if_neg hv]
            rfl

/-- A key outside the list's keys is not found. -/
theorem find?_eq_none_of_not_mem_keys (k : String) (l : List Answer)
    (h : k ∉ answerKeys l) : l.find? (fun x => x.questionId = k) = none := by
  rw [List.find?_eq_none]
  intro x hx
  simp only [decide_eq_true_eq]
  intro hk
  exact h (hk ▸ List.mem_map_of_mem (fun ans => ans.questionId) hx)

/-- Clearing a question removes its mapping (unique keys). -/
theorem lookup_clear (qid : String) :
    ∀ answers : List Answer, (answerKeys answers).Nodup →
      lookupAnswer (saveAnswerUpdateR answers qid "") qid = none := by
  intro answers
  induction answers with
  | nil => intro _; rfl
  | cons a rest ih =>
      intro h
      have hkeys : a.questionId ∉ answerKeys rest ∧ (answerKeys rest).Nodup := by
        simpa [answerKeys] using h
      simp only [saveAnswerUpdateR]
      by_cases ha : a.questionId = qid
      · rw [if_pos ha, if_true]
        unfold lookupAnswer
        rw [find?_eq_none_of_not_mem_keys qid rest (ha ▸ hkeys.1)]
        rfl
      · rw [if_neg ha]
        unfold lookupAnswer at ih ⊢
        simp only [List.find?_cons,
          (by simp [ha] : (decide (a.questionId = qid)) = false)]
        exact ih hkeys.2

/-- Saving a non-empty answer sets or overwrites the mapping. -/
theorem lookup_set (qid v : String) (hv : v ≠ "") :
    ∀ answers : List Answer,
      lookupAnswer (saveAnswerUpdateR answers qid v) qid = some v := by
  intro answers
  induction answers with
  | nil =>
      simp only [saveAnswerUpdateR]
      rw [if_neg hv]
      simp [lookupAnswer]
  | cons a rest ih =>
      simp only [saveAnswerUpdateR]
      by_cases ha : a.questionId = qid
      · rw [if_pos ha, if_neg hv]
        simp [lookupAnswer, List.find?_cons]
      · rw [if_neg ha]
        unfold lookupAnswer at ih ⊢
        simp only [List.find?_cons,
          (by simp [ha] : (decide (a.questionId = qid)) = false)]
        exact ih

/-- Saving one question leaves every other question's mapping unchanged. -/
theorem lookup_other (qid v k : String) (hk : k ≠ qid) :
    ∀ answers : List Answer,
      lookupAnswer (saveAnswerUpdateR answers qid v) k = lookupAnswer answers k := by
  intro answers
  induction answers with
  | nil =>
      simp only [saveAnswerUpdateR]
      by_cases hv : v = ""
      · rw [if_pos hv]
      · rw [if_neg hv]
        unfold lookupAnswer
        simp only [List.find?_cons,
          (by simp [Ne.symm hk] : (decide ((Answer.mk qid v).questionId = k)) = false)]
        try rfl
  | cons a rest ih =>
      simp only [saveAnswerUpdateR]
      by_cases ha : a.questionId = qid
      · have hka : (decide (a.questionId = k)) = false := by
          simp [ha, Ne.symm hk]
        by_cases hv : v = ""
        · rw [if_pos ha, if_pos hv]
          unfold lookupAnswer
          conv_rhs => rw [List.find?_cons]
          simp only [hka]
        · rw [if_pos ha, if_neg hv]
          unfold lookupAnswer
          simp only [List.find?_cons, hka,
            (by simp [Ne.symm hk] : (decide ((Answer.mk qid v).questionId = k)) = false)]
      · rw [if_neg ha]
        unfold lookupAnswer at ih ⊢
        simp only [List.find?_cons]
        by_cases hak : a.questionId = k
        · simp only [(by simp [hak] : (decide (a.questionId = k)) = true)]
        · simp only [(by simp [hak] : (decide (a.questionId = k)) = false)]
          exact ih

/-- Clearing an absent question is a no-op. -/
theorem clear_noop (qid : String) :
    ∀ answers : List Answer, lookupAnswer answers qid = none →
      saveAnswerUpdateR answers qid "" = answers := by
  intro answers
  induction answers with
  | nil => intro _; rfl
  | cons a rest ih =>
      intro h
      unfold lookupAnswer at h
      simp only [List.find?_cons] at h
      by_cases ha : a.questionId = qid
      · rw [(by simp [ha] : (decide (a.questionId = qid)) = true)] at h
        exact absurd h (by simp)
      · rw [(by simp [ha] : (decide (a.questionId = qid)) = false)] at h
        simp only [saveAnswerUpdateR]
        rw [if_neg ha]
        exact congrArg (List.cons a) (ih h)

/-- Keys of the updated list come from the old keys or are the saved key. -/
theorem mem_keys_saveAnswerUpdateR (qid v k : String) :
    ∀ answers : List Answer,
      k ∈ answerKeys (saveAnswerUpdateR answers qid v) →
      k ∈ answerKeys answers ∨ k = qid := by
  intro answers
  induction answers with
  | nil =>
      intro h
      by_cases hv : v = ""
      · rw [saveAnswerUpdateR, if_pos hv] at h
        exact absurd h (by simp [answerKeys])
      · rw [saveAnswerUpdateR, if_neg hv] at h
        right
        simpa [answerKeys] using h
  | cons a rest ih =>
      intro h
      simp only [saveAnswerUpdateR] at h
      by_cases ha : a.questionId = qid
      · rw [if_pos ha] at h
        by_cases hv : v = ""
        · rw [if_pos hv] at h
          left
          simp only [answerKeys, List.map_cons, List.mem_cons]
          right
          simpa [answerKeys] using h
        · rw [if_neg hv] at h
          simp only [answerKeys, List.map_cons, List.mem_cons] at h
          rcases h with h | h
          · right; exact h
          · left
            simp only [answerKeys, List.map_cons, List.mem_cons]
            right
            exact h
      · rw [if_neg ha] at h
        simp only [answerKeys, List.map_cons, List.mem_cons] at h
        rcases h with h | h
        · left
          simp [answerKeys, h]
        · rcases ih (by simpa [answerKeys] using h) with h2 | h2
          · left
            simp only [answerKeys, List.map_cons, List.mem_cons]
            right
            simpa [answerKeys] using h2
          · right; exact h2

/-- The update preserves uniqueness of the answer keys. -/
theorem keys_nodup_saveAnswerUpdateR (qid v : String) :
    ∀ answers : List Answer, (answerKeys answers).Nodup →
      (answerKeys (saveAnswerUpdateR answers qid v)).Nodup := by
  intro answers
  induction answers with
  | nil =>
      intro _
      by_cases hv : v = ""
      · rw [saveAnswerUpdateR, if_pos hv]
        simp [answerKeys]
      · rw [saveAnswerUpdateR, if_neg hv]
        simp [answerKeys]
  | cons a rest ih =>
      intro h
      have hkeys : a.questionId ∉ answerKeys rest ∧ (answerKeys rest).Nodup := by
        simpa [answerKeys] using h
      simp only [saveAnswerUpdateR]
      by_cases ha : a.questionId = qid
      · rw [if_pos ha]
        by_cases hv : v = ""
        · rw [if_pos hv]
          exact hkeys.2
        · rw [if_neg hv]
          simp only [answerKeys, List.map_cons, List.nodup_cons]
          exact ⟨ha ▸ hkeys.1, hkeys.2⟩
      · rw [if_neg ha]
        simp only [answerKeys, List.map_cons, List.nodup_cons]
        refine ⟨?_, ih hkeys.2⟩
        intro hmem
        rcases mem_keys_saveAnswerUpdateR qid v a.questionId rest
            (by simpa [answerKeys] using hmem) with h2 | h2
        · exact hkeys.1 h2
        · exact ha h2

/-- Questions whose id has no stored answer contribute nothing, so they can
be filtered out of the quiz without changing the score. -/
theorem calcScoreR_filter_ne (answers : List Answer) (qid : String)
    (hnone : answers.find? (fun ans => ans.questionId = qid) = none) :
    ∀ qs : List Question,
      calcScoreR answers (qs.filter (fun q => decide (q.id ≠ qid))) = calcScoreR answers qs := by
  intro qs
  induction qs with
  | nil => rfl
  | cons q rest ih =>
      simp only [List.filter_cons]
      by_cases hq : q.id = qid
      · rw [if_neg (by simp [hq])]
        simp only [calcScoreR]
        rw [hq, hnone, ih]
        exact (Nat.zero_add _).symm
      · rw [if_pos (by simp [hq])]
        simp only [calcScoreR]
        rw [ih]

/-- `calculateScore` counts the questions whose stored answer matches. -/
theorem calcScoreR_eq_countP (answers : List Answer) :
    ∀ qs : List Question,
      calcScoreR answers qs
      = qs.countP (fun q => decide (lookupAnswer answers q.id = some q.correctAnswer)) := by
  intro qs
  induction qs with
  | nil => rfl
  | cons q rest ih =>
      simp only [calcScoreR, List.countP_cons, ih]
      rcases h : answers.find? (fun ans => ans.questionId = q.id) with _ | a
      · have hnone : lookupAnswer answers q.id = none := by
          unfold lookupAnswer
          rw [h]
          rfl
        rw [h, hnone]
        simp
      · have hsome : lookupAnswer answers q.id = some a.selectedAnswer := by
          unfold lookupAnswer
          rw [h]
          rfl
        rw [h, hsome]
        simp only [Option.some.injEq]
        by_cases hc : a.selectedAnswer = q.correctAnswer
        · simp [hc, Nat.add_comm]
        · simp [hc]

/-! ## Claim theorems. -/

/-- C3: `calculateScore` awards exactly one point per question of the quiz
whose stored answer (looked up by questionId) equals that question's
`correctAnswer` exactly, zero for unanswered or mismatched questions; entries
of the answers list whose questionId matches no question are silently ignored
(filtering them away does not change the score); hence the result lies in
`[0, questionCount]`. -/
theorem calculateScore_spec (answers : List Answer) (quiz : Quiz) :
    calculateScore answers quiz
      = quiz.questions.countP
          (fun q => decide (lookupAnswer answers q.id = some q.correctAnswer))
    ∧ calculateScore answers quiz ≤ quiz.questions.length
    ∧ calculateScore
        (answers.filter (fun ans => decide (ans.questionId ∈ questionIds quiz.questions)))
        quiz
      = calculateScore answers quiz := by
  refine ⟨?_, ?_, ?_⟩
  · rw [calculateScore_eq_calcScoreR]
    exact calcScoreR_eq_countP answers quiz.questions
  · rw [calculateScore_eq_calcScoreR, calcScoreR_eq_countP answers quiz.questions]
    exact List.countP_le_length _
  · rw [calculateScore_eq_calcScoreR, calculateScore_eq_calcScoreR]
    apply calcScoreR_congr
    intro q hq
    apply find?_filter_of_key
    intro ans hans
    simp only [decide_eq_true_eq]
    rw [hans]
    simp only [questionIds]
    exact List.mem_map_of_mem (fun qq => qq.id) hq

/-- C5: SaveAnswer on a missing attempt fails with NotFound; on a submitted
attempt it always fails with AlreadyFinalized; in both cases the store — in
particular the attempt's answers and score — is completely unchanged. -/
theorem saveAnswer_rejects (st : St) (aid qid v : String) :
    (findAttempt st aid = none → saveAnswer st aid qid v = (.attemptNotFound, st))
    ∧ (∀ a, findAttempt st aid = some a → a.status = .submitted →
        saveAnswer st aid qid v = (.alreadySubmitted, st)) := by
  constructor
  · intro h
    simp [saveAnswer, h]
  · intro a ha hs
    simp [saveAnswer, ha, hs]

/-- Witness for C5 at a store with no attempt and at one with a submitted
attempt. -/
theorem saveAnswer_rejects_witness :
    saveAnswer sampleStQuizOnly "missing" "qu1" "A" = (.attemptNotFound, sampleStQuizOnly)
    ∧ saveAnswer sampleStSub "at2" "qu1" "B" = (.alreadySubmitted, sampleStSub) :=
  ⟨(saveAnswer_rejects sampleStQuizOnly "missing" "qu1" "A").1 (by decide),
   (saveAnswer_rejects sampleStSub "at2" "qu1" "B").2 sampleSubmitted (by decide) (by decide)⟩

/-- C7: when the quiz exists, StartAttempt creates exactly one Attempt with
status in-progress, empty answers, no score, and
`endTime = min(quiz.dateCloses, now + quiz.timeLimit minutes)`, and registers
exactly one scheduler job at that endTime carrying the new attempt id; when
the quiz does not exist it fails with NotFound and creates nothing. -/
theorem startAttempt_creates (st : St) (u un qid : String) (now : Int) (nid : String) :
    (findQuiz st qid = none → startAttempt st u un qid now nid = (.quizNotFound, st))
    ∧ (∀ quiz, findQuiz st qid = some quiz →
        ∃ a : Attempt,
          startAttempt st u un qid now nid
            = (.created a,
               { st with
                   attempts := st.attempts ++ [a],
                   jobs := st.jobs
                     ++ [{ fireAt := min quiz.dateCloses (now + quiz.timeLimit * 60000),
                           attemptId := nid }] })
          ∧ a.id = nid ∧ a.userId = u ∧ a.quizId = qid ∧ a.status = .inProgress
          ∧ a.score = none ∧ a.answers = [] ∧ a.startTime = now
          ∧ a.endTime = min quiz.dateCloses (now + quiz.timeLimit * 60000)) := by
  constructor
  · intro h
    simp [startAttempt, h]
  · intro quiz h
    refine ⟨{ id := nid, userId := u, quizId := qid, quizTitle := quiz.title,
              userName := un, startTime := now,
              endTime := min quiz.dateCloses (now + quiz.timeLimit * 60000),
              score := none, status := .inProgress, answers := [] },
      ?_, rfl, rfl, rfl, rfl, rfl, rfl, rfl, rfl⟩
    simp [startAttempt, h]

/-- Witness for C7: a store without the quiz and the sample store. -/
theorem startAttempt_creates_witness :
    startAttempt { quizzes := [], attempts := [], jobs := [] } "u" "U" "qz1" 0 "n1"
      = (.quizNotFound, { quizzes := [], attempts := [], jobs := [] })
    ∧ ∃ a : Attempt,
        startAttempt sampleStQuizOnly "user" "U" "qz1" 0 "n1"
          = (.created a,
             { sampleStQuizOnly with
                 attempts := sampleStQuizOnly.attempts ++ [a],
                 jobs := sampleStQuizOnly.jobs
                   ++ [{ fireAt := min sampleQuiz.dateCloses (0 + sampleQuiz.timeLimit * 60000),
                         attemptId := "n1" }] })
        ∧ a.id = "n1" ∧ a.userId = "user" ∧ a.quizId = "qz1" ∧ a.status = .inProgress
        ∧ a.score = none ∧ a.answers = [] ∧ a.startTime = 0
        ∧ a.endTime = min sampleQuiz.dateCloses (0 + sampleQuiz.timeLimit * 60000) :=
  ⟨(startAttempt_creates { quizzes := [], attempts := [], jobs := [] } "u" "U" "qz1" 0 "n1").1 rfl,
   (startAttempt_creates sampleStQuizOnly "user" "U" "qz1" 0 "n1").2 sampleQuiz (by decide)⟩

/-- C4: for an in-progress attempt whose quiz exists, the score the agenda
job computes equals the score Submit's `calculateScore` computes (the two
loops are extensionally equal on system states, whose answer keys and
question ids are unique), and auto-submit leaves the Attempt and Quiz
collections in exactly the state explicit submit leaves them in. -/
theorem autoSubmit_matches_submit (st : St) (aid : String) (attempt : Attempt) (quiz : Quiz)
    (hA : findAttempt st aid = some attempt)
    (hs : attempt.status = .inProgress)
    (hQ : findQuiz st attempt.quizId = some quiz)
    (h1 : (answerKeys attempt.answers).Nodup)
    (h2 : (questionIds quiz.questions).Nodup) :
    agendaScore attempt.answers quiz.questions = calculateScore attempt.answers quiz
    ∧ (autoSubmitAttempt st aid).2.attempts = (submitAttempt st aid).2.attempts
    ∧ (autoSubmitAttempt st aid).2.quizzes = (submitAttempt st aid).2.quizzes := by
  have hsc := score_paths_agree attempt.answers quiz h1 h2
  refine ⟨hsc, ?_, ?_⟩ <;>
    simp [autoSubmitAttempt, submitAttempt, hA, hQ, hs, hsc, cancelJobs,
      updateAttempt, updateQuiz]

/-- Witness for C4 on the sample store. -/
theorem autoSubmit_matches_submit_witness :
    agendaScore sampleAttempt.answers sampleQuiz.questions
      = calculateScore sampleAttempt.answers sampleQuiz
    ∧ (autoSubmitAttempt sampleSt "at1").2.attempts = (submitAttempt sampleSt "at1").2.attempts
    ∧ (autoSubmitAttempt sampleSt "at1").2.quizzes = (submitAttempt sampleSt "at1").2.quizzes :=
  autoSubmit_matches_submit sampleSt "at1" sampleAttempt sampleQuiz (by decide) (by decide)
    (by decide) (by decide) (by decide)

/-- C8: `calculateScore` is invariant under permutation of the answers list
(an answer map: its questionId keys are unique). -/
theorem calculateScore_perm_invariant (quiz : Quiz) (answers answers2 : List Answer)
    (hperm : answers.Perm answers2) (h : (answerKeys answers).Nodup) :
    calculateScore answers2 quiz = calculateScore answers quiz := by
  rw [calculateScore_eq_calcScoreR, calculateScore_eq_calcScoreR]
  exact calcScoreR_congr answers2 answers quiz.questions
    (fun q _ => (find?_perm_of_nodup answers answers2 hperm h q.id).symm)

/-- Witness for C8: swapping the two entries of a concrete answer map. -/
theorem calculateScore_perm_invariant_witness :
    calculateScore [{ questionId := "qu2", selectedAnswer := "B" },
        { questionId := "qu1", selectedAnswer := "A" }] sampleQuiz
      = calculateScore [{ questionId := "qu1", selectedAnswer := "A" },
          { questionId := "qu2", selectedAnswer := "B" }] sampleQuiz :=
  calculateScore_perm_invariant sampleQuiz
    [{ questionId := "qu1", selectedAnswer := "A" },
     { questionId := "qu2", selectedAnswer := "B" }]
    [{ questionId := "qu2", selectedAnswer := "B" },
     { questionId := "qu1", selectedAnswer := "A" }]
    (by decide) (by decide)

/-- C6: on an in-progress attempt's answers (unique keys), saving an empty
selectedAnswer removes the mapping for that questionId (a no-op when none
exists), a non-empty one sets or overwrites it, every other question's
mapping is unchanged, and a cleared question contributes nothing to a
subsequent Submit's score (questions carrying its id can be dropped without
changing `calculateScore`). -/
theorem saveAnswer_update_semantics (answers : List Answer) (qid v : String)
    (h : (answerKeys answers).Nodup) :
    lookupAnswer (saveAnswerUpdate answers qid "") qid = none
    ∧ (v ≠ "" → lookupAnswer (saveAnswerUpdate answers qid v) qid = some v)
    ∧ (∀ k, k ≠ qid → lookupAnswer (saveAnswerUpdate answers qid v) k = lookupAnswer answers k)
    ∧ (lookupAnswer answers qid = none → saveAnswerUpdate answers qid "" = answers)
    ∧ (∀ quiz : Quiz,
        calculateScore (saveAnswerUpdate answers qid "") quiz
          = calculateScore (saveAnswerUpdate answers qid "")
              { quiz with questions := quiz.questions.filter (fun q => decide (q.id ≠ qid)) }) := by
  refine ⟨?_, ?_, ?_, ?_, ?_⟩
  · rw [saveAnswerUpdate_eq_R]
    exact lookup_clear qid answers h
  · intro hv
    rw [saveAnswerUpdate_eq_R]
    exact lookup_set qid v hv answers
  · intro k hk
    rw [saveAnswerUpdate_eq_R]
    exact lookup_other qid v k hk answers
  · intro hnone
    rw [saveAnswerUpdate_eq_R]
    exact clear_noop qid answers hnone
  · intro quiz
    have hnone : (saveAnswerUpdate answers qid "").find? (fun ans => ans.questionId = qid)
        = none := by
      have hl := lookup_clear qid answers h
      rw [saveAnswerUpdate_eq_R]
      unfold lookupAnswer at hl
      exact Option.map_eq_none'.mp hl
    rw [calculateScore_eq_calcScoreR, calculateScore_eq_calcScoreR]
    exact (calcScoreR_filter_ne _ qid hnone quiz.questions).symm

/-- Witness for C6 on a two-entry answer map. -/
theorem saveAnswer_update_semantics_witness :
    lookupAnswer (saveAnswerUpdate [{ questionId := "qu1", selectedAnswer := "A" },
        { questionId := "qu2", selectedAnswer := "B" }] "qu1" "") "qu1" = none
    ∧ lookupAnswer (saveAnswerUpdate [{ questionId := "qu1", selectedAnswer := "A" },
        { questionId := "qu2", selectedAnswer := "B" }] "qu1" "C") "qu1" = some "C"
    ∧ lookupAnswer (saveAnswerUpdate [{ questionId := "qu1", selectedAnswer := "A" },
        { questionId := "qu2", selectedAnswer := "B" }] "qu1" "C") "qu2"
        = lookupAnswer [{ questionId := "qu1", selectedAnswer := "A" },
            { questionId := "qu2", selectedAnswer := "B" }] "qu2"
    ∧ saveAnswerUpdate [{ questionId := "qu1", selectedAnswer := "A" },
        { questionId := "qu2", selectedAnswer := "B" }] "qu3" ""
        = [{ questionId := "qu1", selectedAnswer := "A" },
           { questionId := "qu2", selectedAnswer := "B" }]
    ∧ calculateScore (saveAnswerUpdate [{ questionId := "qu1", selectedAnswer := "A" },
          { questionId := "qu2", selectedAnswer := "B" }] "qu1" "") sampleQuiz
        = calculateScore (saveAnswerUpdate [{ questionId := "qu1", selectedAnswer := "A" },
            { questionId := "qu2", selectedAnswer := "B" }] "qu1" "")
            { sampleQuiz with
                questions := sampleQuiz.questions.filter (fun q => decide (q.id ≠ "qu1")) } :=
  ⟨(saveAnswer_update_semantics [{ questionId := "qu1", selectedAnswer := "A" },
      { questionId := "qu2", selectedAnswer := "B" }] "qu1" "C" (by decide)).1,
   (saveAnswer_update_semantics [{ questionId := "qu1", selectedAnswer := "A" },
      { questionId := "qu2", selectedAnswer := "B" }] "qu1" "C" (by decide)).2.1 (by decide),
   (saveAnswer_update_semantics [{ questionId := "qu1", selectedAnswer := "A" },
      { questionId := "qu2", selectedAnswer := "B" }] "qu1" "C" (by decide)).2.2.1 "qu2" (by decide),
   (saveAnswer_update_semantics [{ questionId := "qu1", selectedAnswer := "A" },
      { questionId := "qu2", selectedAnswer := "B" }] "qu3" "C" (by decide)).2.2.2.1 (by decide),
   (saveAnswer_update_semantics [{ questionId := "qu1", selectedAnswer := "A" },
      { questionId := "qu2", selectedAnswer := "B" }] "qu1" "C" (by decide)).2.2.2.2 sampleQuiz⟩

/-- C10: the questionId keys of an attempt's answers are unique: the list is
empty when StartAttempt creates the attempt, and the SaveAnswer update
preserves uniqueness (it overwrites or removes the entry found by questionId
and appends a new entry only when none exists). -/
theorem answers_keys_unique (answers : List Answer) (qid v : String)
    (h : (answerKeys answers).Nodup) :
    (answerKeys (saveAnswerUpdate answers qid v)).Nodup
    ∧ (∀ (st : St) (u un quizId : String) (now : Int) (nid : String)
          (a : Attempt) (st2 : St),
        startAttempt st u un quizId now nid = (.created a, st2) → a.answers = []) := by
  constructor
  · rw [saveAnswerUpdate_eq_R]
    exact keys_nodup_saveAnswerUpdateR qid v answers h
  · intro st u un quizId now nid a st2 hstep
    rcases hq : findQuiz st quizId with _ | quiz
    · simp [startAttempt, hq] at hstep
    · simp only [startAttempt, hq, Prod.mk.injEq, StartResult.created.injEq] at hstep
      rw [← hstep.1]

/-- Witness for C10: the update keeps concrete keys unique and a concrete
started attempt has no answers. -/
theorem answers_keys_unique_witness :
    (answerKeys (saveAnswerUpdate [{ questionId := "qu1", selectedAnswer := "A" }]
        "qu2" "B")).Nodup
    ∧ (Attempt.mk "n1" "user" "qz1" "Sample" "U" 0 60000 none .inProgress []).answers = [] :=
  ⟨(answers_keys_unique [{ questionId := "qu1", selectedAnswer := "A" }] "qu2" "B"
      (by decide)).1,
   (answers_keys_unique [{ questionId := "qu1", selectedAnswer := "A" }] "qu2" "B"
      (by decide)).2 sampleStQuizOnly "user" "U" "qz1" 0 "n1"
      (Attempt.mk "n1" "user" "qz1" "Sample" "U" 0 60000 none .inProgress [])
      (startAttempt sampleStQuizOnly "user" "U" "qz1" 0 "n1").2 (by decide)⟩

/-- C1: the finalizing update is NOT a conditional write — with the Submit
route and the agenda job interleaved at their database-operation boundaries,
the schedule in which the job fetches the attempt before the route begins and
finishes after the route has committed makes BOTH sides finalize: starting
from aggregates (0, 0) the sample quiz ends with `attemptCount = 2` and
`totalScore = 2`, and neither side observes `status = submitted`.  This
evaluates the code at the failing interleaving; it contradicts the claimed
exactly-once guarantee. -/
theorem race_double_increment :
    (findQuiz sampleSt "qz1").map Quiz.attemptCount = some 0
    ∧ (findQuiz sampleSt "qz1").map Quiz.totalScore = some 0
    ∧ (findQuiz (finRun sampleSt (finInit .submitRoute "at1") (finInit .autoJob "at1")
          raceSchedule).1 "qz1").map Quiz.attemptCount = some 2
    ∧ (findQuiz (finRun sampleSt (finInit .submitRoute "at1") (finInit .autoJob "at1")
          raceSchedule).1 "qz1").map Quiz.totalScore = some 2
    ∧ (finRun sampleSt (finInit .submitRoute "at1") (finInit .autoJob "at1")
        raceSchedule).2.1.res = some .finalized
    ∧ (finRun sampleSt (finInit .submitRoute "at1") (finInit .autoJob "at1")
        raceSchedule).2.2.res = some .finalized := by
  decide

/-- When the same two finalizers run serially (the route completes before the
job starts) the aggregates are incremented exactly once and the loser
observes the submitted status — the claimed behaviour holds only without
interleaving. -/
theorem race_serial_single_increment :
    (findQuiz (finRun sampleSt (finInit .submitRoute "at1") (finInit .autoJob "at1")
          [true, true, true, true, true, false, false]).1 "qz1").map Quiz.attemptCount
      = some 1
    ∧ (finRun sampleSt (finInit .submitRoute "at1") (finInit .autoJob "at1")
        [true, true, true, true, true, false, false]).2.2.res = some .alreadySubmitted := by
  decide

/-- Counterexample for C2: calling StartAttempt twice in quick succession for
the same (user, quiz) with no intervening submit returns two DIFFERENT
attempt ids and leaves two in-progress attempts for that (user, quiz) — the
handler performs no in-progress lookup at all. -/
theorem startAttempt_twice_distinct :
    startResultId (startAttempt sampleStQuizOnly "user" "U" "qz1" 0 "n1").1 = some "n1"
    ∧ startResultId (startAttempt
        (startAttempt sampleStQuizOnly "user" "U" "qz1" 0 "n1").2
        "user" "U" "qz1" 1000 "n2").1 = some "n2"
    ∧ (startAttempt (startAttempt sampleStQuizOnly "user" "U" "qz1" 0 "n1").2
        "user" "U" "qz1" 1000 "n2").2.attempts.countP
          (fun a => decide (a.userId = "user" ∧ a.quizId = "qz1"
            ∧ a.status = AttemptStatus.inProgress)) = 2 := by
  decide

/-- C2 (amended): StartAttempt does not deduplicate: whenever the quiz
exists, each call — including one made while an in-progress attempt for the
same (user, quiz) already exists — creates and returns a fresh attempt, so
two successive calls return two distinct identifiers and leave two distinct
in-progress attempts for that (user, quiz) stored side by side. -/
theorem startAttempt_no_dedup (st : St) (u un qid : String) (t1 t2 : Int)
    (id1 id2 : String) (quiz : Quiz)
    (hq : findQuiz st qid = some quiz) (hne : id1 ≠ id2) :
    ∃ a1 a2 : Attempt,
      (startAttempt st u un qid t1 id1).1 = .created a1
      ∧ (startAttempt (startAttempt st u un qid t1 id1).2 u un qid t2 id2).1 = .created a2
      ∧ a1.id = id1 ∧ a2.id = id2 ∧ a1.id ≠ a2.id
      ∧ a1.status = .inProgress ∧ a2.status = .inProgress
      ∧ a1.userId = u ∧ a1.quizId = qid ∧ a2.userId = u ∧ a2.quizId = qid
      ∧ a1 ∈ (startAttempt (startAttempt st u un qid t1 id1).2 u un qid t2 id2).2.attempts
      ∧ a2 ∈ (startAttempt (startAttempt st u un qid t1 id1).2 u un qid t2 id2).2.attempts := by
  have hq2 : st.quizzes.find? (fun q => q.id = qid) = some quiz := hq
  refine ⟨{ id := id1, userId := u, quizId := qid, quizTitle := quiz.title,
            userName := un, startTime := t1,
            endTime := min quiz.dateCloses (t1 + quiz.timeLimit * 60000),
            score := none, status := .inProgress, answers := [] },
          { id := id2, userId := u, quizId := qid, quizTitle := quiz.title,
            userName := un, startTime := t2,
            endTime := min quiz.dateCloses (t2 + quiz.timeLimit * 60000),
            score := none, status := .inProgress, answers := [] },
          ?_, ?_, rfl, rfl, hne, rfl, rfl, rfl, rfl, rfl, rfl, ?_, ?_⟩ <;>
    simp [startAttempt, findQuiz, hq2]

/-- Witness for C2 (amended) on the sample store. -/
theorem startAttempt_no_dedup_witness :
    ∃ a1 a2 : Attempt,
      (startAttempt sampleStQuizOnly "user" "U" "qz1" 0 "n1").1 = .created a1
      ∧ (startAttempt (startAttempt sampleStQuizOnly "user" "U" "qz1" 0 "n1").2
          "user" "U" "qz1" 1000 "n2").1 = .created a2
      ∧ a1.id = "n1" ∧ a2.id = "n2" ∧ a1.id ≠ a2.id
      ∧ a1.status = .inProgress ∧ a2.status = .inProgress
      ∧ a1.userId = "user" ∧ a1.quizId = "qz1" ∧ a2.userId = "user" ∧ a2.quizId = "qz1"
      ∧ a1 ∈ (startAttempt (startAttempt sampleStQuizOnly "user" "U" "qz1" 0 "n1").2
          "user" "U" "qz1" 1000 "n2").2.attempts
      ∧ a2 ∈ (startAttempt (startAttempt sampleStQuizOnly "user" "U" "qz1" 0 "n1").2
          "user" "U" "qz1" 1000 "n2").2.attempts :=
  startAttempt_no_dedup sampleStQuizOnly "user" "U" "qz1" 0 1000 "n1" "n2" sampleQuiz
    (by decide) (by decide)

/-- Counterexample for C9: for an existing but still in-progress attempt
whose quiz exists, the participant who owns it does NOT get the attempt —
the handler answers 403 ("Attempt is not submitted yet"), refuting the claim
that the attempt is returned whenever it and its quiz exist and the
requester is the participant. -/
theorem getAttempt_inprogress_hidden :
    findAttempt sampleSt "at1" = some sampleAttempt
    ∧ findQuiz sampleSt sampleAttempt.quizId = some sampleQuiz
    ∧ sampleAttempt.userId = "user"
    ∧ getAttempt sampleSt "at1" "user" = .notSubmitted
    ∧ getAttempt sampleSt "at1" "user" ≠ .ok sampleAttempt sampleQuiz := by
  decide

/-- C9 (amended): GetAttempt returns the full attempt whenever the attempt
exists, IS SUBMITTED, its quiz exists, and the requester is the participant
or the quiz owner; an existing but in-progress attempt yields Forbidden for
every requester (this check precedes the quiz lookup); a missing attempt or
a missing quiz of a submitted attempt yields NotFound; any other requester
gets Forbidden. -/
theorem getAttempt_access (st : St) (aid uid : String) :
    (findAttempt st aid = none → getAttempt st aid uid = .attemptNotFound)
    ∧ (∀ a, findAttempt st aid = some a → a.status = .inProgress →
        getAttempt st aid uid = .notSubmitted)
    ∧ (∀ a, findAttempt st aid = some a → a.status = .submitted →
        findQuiz st a.quizId = none → getAttempt st aid uid = .quizNotFound)
    ∧ (∀ a q, findAttempt st aid = some a → a.status = .submitted →
        findQuiz st a.quizId = some q → (a.userId = uid ∨ q.createdBy = uid) →
        getAttempt st aid uid = .ok a q)
    ∧ (∀ a q, findAttempt st aid = some a → a.status = .submitted →
        findQuiz st a.quizId = some q → a.userId ≠ uid → q.createdBy ≠ uid →
        getAttempt st aid uid = .unauthorized) := by
  refine ⟨?_, ?_, ?_, ?_, ?_⟩
  · intro h
    simp [getAttempt, h]
  · intro a ha hs
    simp [getAttempt, ha, hs]
  · intro a ha hs hq
    simp [getAttempt, ha, hs, hq]
  · intro a q ha hs hq hok
    have hbranch : getAttempt st aid uid
        = if a.userId = uid ∨ q.createdBy = uid then .ok a q else .unauthorized := by
      simp [getAttempt, ha, hs, hq]
    rw [hbranch, if_pos hok]
  · intro a q ha hs hq h1 h2
    have hbranch : getAttempt st aid uid
        = if a.userId = uid ∨ q.createdBy = uid then .ok a q else .unauthorized := by
      simp [getAttempt, ha, hs, hq]
    rw [hbranch, if_neg (not_or.mpr ⟨h1, h2⟩)]

/-- Witness for C9 (amended): the participant and the quiz owner see a
submitted attempt, a stranger is rejected, a missing attempt is NotFound. -/
theorem getAttempt_access_witness :
    getAttempt sampleStSub "at2" "user" = .ok sampleSubmitted sampleQuiz
    ∧ getAttempt sampleStSub "at2" "owner" = .ok sampleSubmitted sampleQuiz
    ∧ getAttempt sampleStSub "at2" "stranger" = .unauthorized
    ∧ getAttempt sampleStSub "missing" "user" = .attemptNotFound :=
  ⟨(getAttempt_access sampleStSub "at2" "user").2.2.2.1 sampleSubmitted sampleQuiz
      (by decide) (by decide) (by decide) (Or.inl (by decide)),
   (getAttempt_access sampleStSub "at2" "owner").2.2.2.1 sampleSubmitted sampleQuiz
      (by decide) (by decide) (by decide) (Or.inr (by decide)),
   (getAttempt_access sampleStSub "at2" "stranger").2.2.2.2 sampleSubmitted sampleQuiz
      (by decide) (by decide) (by decide) (by decide) (by decide),
   (getAttempt_access sampleStSub "missing" "user").1 (by decide)⟩

end Susun
